import Mathlib

/-!
Shallow embedding of `src/functions/index.js` of the
Firestore-webhook extension: the Firestore event transformer
(`transformFirestoreEvent` with its inner `parseDocumentData`), the
endpoint validator (`isValidWebhookUrl`) and the webhook dispatcher
(`sendWebhook`), together with theorems checking the natural-language
specification against the code.

JavaScript dynamic values are embedded as the inductive `Json`.
Conventions of the embedding:
  - the JS value `undefined` is the constructor `undefined`; property lookup
    on a missing key yields `undefined`, as in JS;
  - JS numbers produced by `parseInt` are embedded as `Int` (constructor
    `num`) with `nan` for a failed parse; numbers produced by `parseFloat`
    keep their source literal (constructor `float`) since no claim under
    verification compares two distinct literals of one float;
  - objects are insertion-ordered association lists, as JS objects are
    enumeration-ordered; property assignment (`setKey`) overwrites in
    place or appends, as JS does;
  - JS expressions that can throw are embedded in `Except String`: the
    body of the try block is `transformCore`, whose error sites are
    `documentPath.split('/')` when `event.document || ""` is a truthy
    non-string, and the member accesses `value.arrayValue.values` and
    `value.mapValue.fields` inside the decoder, which raise a TypeError
    when the tag's value is `null` (it passes the `!== undefined` check
    and property access on `null` throws); the surrounding try/catch is
    the total wrapper `transformFirestoreEvent`;
  - wall-clock reads (`new Date().toISOString()`) are the explicit
    parameter `now`.
-/

namespace FirestoreWebhook

/-- A JavaScript runtime value, as far as the pipeline under
verification observes it. -/
inductive Json where
  | undefined
  | null
  | nan
  | bool (b : Bool)
  | num (n : Int)
  | float (lit : String)
  | str (s : String)
  | arr (elems : List Json)
  | obj (props : List (String × Json))

/-- JS truthiness of an embedded value (`float` literals are truthy
unless they denote zero or an empty parse, a corner no claim touches). -/
def jsTruthy : Json → Bool
  | .undefined => false
  | .null => false
  | .nan => false
  | .bool b => b
  | .num n => n != 0
  | .float lit => !(lit == "0" || lit == "0.0" || lit == "-0" || lit == "")
  | .str s => s != ""
  | .arr _ => true
  | .obj _ => true

/-- Whether `v !== undefined` holds in JS. -/
def jsDefined : Json → Bool
  | .undefined => false
  | _ => true

/-- Whether `typeof v === 'object'` holds in JS (`null` and arrays
included). -/
def typeofObject : Json → Bool
  | .null => true
  | .arr _ => true
  | .obj _ => true
  | _ => false

/-- Splitting a character list at every occurrence of `sep`, the
accumulator holding the current chunk reversed. -/
def splitCharAux (sep : Char) : List Char → List Char → List String
  | [], acc => [String.mk acc.reverse]
  | c :: cs, acc =>
    if c = sep then String.mk acc.reverse :: splitCharAux sep cs []
    else splitCharAux sep cs (c :: acc)

/-- JS `s.split(sep)` for a one-character separator: the chunks between
occurrences of `sep`, the empty string splitting to `[""]`. -/
def splitChar (sep : Char) (s : String) : List String := splitCharAux sep s.data []

/-- Whether `s` ends with `suf` (JS `String.prototype.endsWith`). -/
def strEndsWith (s suf : String) : Bool := suf.data.reverse.isPrefixOf s.data.reverse

/-- The numeric value of a digit string, `none` when empty or not all
digits (the parse of a JS array index). -/
def strToNat? (s : String) : Option Nat :=
  if !s.data.isEmpty && s.data.all Char.isDigit then
    some (s.data.foldl (fun acc c => acc * 10 + (c.toNat - 48)) 0)
  else none

/-- A JS whitespace character, as far as the parses here skip them. -/
def isWsChar (c : Char) : Bool := c = ' ' || c = '\t' || c = '\n' || c = '\r'

/-- First-match lookup in an association list, `undefined` when absent. -/
def lookupProp : List (String × Json) → String → Json
  | [], _ => .undefined
  | (k', v) :: rest, k => if k' = k then v else lookupProp rest k

/-- JS property access `v[k]` for a base that cannot throw:
association-list lookup on objects, numeric indexing on arrays,
`undefined` on the other primitives (whose wrappers carry none of the
properties read here). Used only where the base is known not to be
`null` or `undefined` — access on those throws in JS and is embedded
separately as `jsMember`. -/
def getProp : Json → String → Json
  | .obj props, k => lookupProp props k
  | .arr xs, k =>
    (match strToNat? k with
     | some i => (xs.get? i).getD .undefined
     | none => .undefined)
  | _, _ => .undefined

/-- JS property access `base[k]` as a possibly-throwing expression: a
TypeError for a `null` or `undefined` base, the pure access
otherwise. -/
def jsMember (base : Json) (k : String) : Except String Json :=
  match base with
  | .null => .error ("Cannot read properties of null (reading '" ++ k ++ "')")
  | .undefined => .error ("Cannot read properties of undefined (reading '" ++ k ++ "')")
  | b => .ok (getProp b k)

/-- JS `a || b`. -/
def jsOr (a b : Json) : Json := if jsTruthy a then a else b

/-- Own enumerable entries of a value, as `Object.entries` lists them:
the property list of an object, indexed elements of an array, indexed
characters of a string, nothing otherwise. -/
def objEntries : Json → List (String × Json)
  | .obj props => props
  | .arr xs => xs.enum.map (fun p => (toString p.1, p.2))
  | .str s => s.data.enum.map (fun p => (toString p.1, .str (String.singleton p.2)))
  | _ => []

/-- Own enumerable keys, as `Object.keys` lists them. -/
def objKeys (v : Json) : List String := (objEntries v).map Prod.fst

/-- JS property assignment `o[k] = v` on an insertion-ordered object:
overwrite in place when the key exists, append otherwise. -/
def setKey : List (String × Json) → String → Json → List (String × Json)
  | [], k, v => [(k, v)]
  | (k', v') :: rest, k, v =>
    if k' = k then (k', v) :: rest else (k', v') :: setKey rest k v

/-- Model of JS `parseInt` on a string: skip leading whitespace, an
optional sign, then the longest run of leading decimal digits; `NaN`
when there is none. (The hexadecimal `0x` form is not modelled; no
claim exercises it.) -/
def jsParseIntStr (s : String) : Json :=
  let cs := s.data.dropWhile isWsChar
  let neg := cs.headD ' ' = '-'
  let rest := match cs with
    | '-' :: r => r
    | '+' :: r => r
    | r => r
  let ds := rest.takeWhile Char.isDigit
  if ds.isEmpty then .nan
  else
    let n : Nat := ds.foldl (fun acc c => acc * 10 + (c.toNat - 48)) 0
    .num (if neg then -(n : Int) else (n : Int))

/-- JS `parseInt` on a dynamic value: strings are parsed, numbers pass
through, everything else is `NaN`. -/
def jsParseInt : Json → Json
  | .str s => jsParseIntStr s
  | .num n => .num n
  | .float lit => jsParseIntStr lit
  | _ => .nan

/-- Model of JS `parseFloat` on a string: `NaN` unless the string,
after whitespace and an optional sign and decimal point, starts with a
digit; a successful parse keeps the remaining source literal as the
embedded float. -/
def jsParseFloatStr (s : String) : Json :=
  let cs := s.data.dropWhile isWsChar
  let u := match cs with
    | '-' :: r => r
    | '+' :: r => r
    | r => r
  let u2 := match u with
    | '.' :: r => r
    | r => r
  if (u2.headD 'x').isDigit then .float (String.mk cs) else .nan

/-- JS `parseFloat` on a dynamic value. -/
def jsParseFloat : Json → Json
  | .str s => jsParseFloatStr s
  | .num n => .num n
  | .float lit => .float lit
  | _ => .nan

/-- Decoding of one field value: the if/else chain in the body of the
loop of `parseDocumentData` (src/functions/index.js lines 88-113),
including the final fallback over `Object.keys` and the non-object
pass-through of the `else` branch. The accesses
`value.arrayValue.values` (line 103) and `value.mapValue.fields`
(line 105) can throw: a `null` tag value passes the `!== undefined`
check and property access on `null` raises a TypeError, which
propagates to the catch of `transformFirestoreEvent`. -/
def decodeField (value : Json) : Except String Json :=
  if jsTruthy value && typeofObject value then
    if jsDefined (getProp value "stringValue") then .ok (getProp value "stringValue")
    else if jsDefined (getProp value "integerValue") then
      .ok (jsParseInt (getProp value "integerValue"))
    else if jsDefined (getProp value "doubleValue") then
      .ok (jsParseFloat (getProp value "doubleValue"))
    else if jsDefined (getProp value "booleanValue") then
      .ok (getProp value "booleanValue")
    else if jsDefined (getProp value "timestampValue") then
      .ok (getProp value "timestampValue")
    else if jsDefined (getProp value "nullValue") then .ok .null
    else if jsDefined (getProp value "arrayValue") then
      match jsMember (getProp value "arrayValue") "values" with
      | .error msg => .error msg
      | .ok inner => .ok (jsOr inner (.arr []))
    else if jsDefined (getProp value "mapValue") then
      match jsMember (getProp value "mapValue") "fields" with
      | .error msg => .error msg
      | .ok inner => .ok (jsOr inner (.obj []))
    else
      match objKeys value with
      | [] => .ok value
      | k :: _ => .ok (getProp value k)
  else .ok value

/-- The decode loop of `parseDocumentData` (lines 87-114): each entry's
value is decoded and assigned in order; the first decode fault aborts
the loop and propagates. -/
def decodeEntries (entries : List (String × Json)) (init : List (String × Json)) :
    Except String (List (String × Json)) :=
  entries.foldlM (fun acc kv => (decodeField kv.2).map (fun d => setKey acc kv.1 d)) init

/-- The inner `parseDocumentData(data, docId)` of
`transformFirestoreEvent` (src/functions/index.js lines 75-117): a
falsy snapshot yields the id-only record; an object without a truthy
`_fieldsProto` is spread raw after the id; otherwise the entries of
`data._fieldsProto || data.fields || data` are decoded one by one into
the record, a decode fault propagating to the caller. -/
def parseDocumentData (data : Json) (docId : String) : Except String Json :=
  if !jsTruthy data then .ok (.obj [("id", .str docId)])
  else if typeofObject data && !jsTruthy (getProp data "_fieldsProto") then
    .ok (.obj ((objEntries data).foldl (fun acc kv => setKey acc kv.1 kv.2)
      [("id", .str docId)]))
  else
    let fields := jsOr (getProp data "_fieldsProto") (jsOr (getProp data "fields") data)
    Except.map Json.obj (decodeEntries (objEntries fields) [("id", .str docId)])

/-- Quoting of a string for the `JSON.stringify` model (inner escapes
are not modelled; no claim compares strings containing quotes). -/
def jsQuote (s : String) : String := "\"" ++ s ++ "\""

mutual

/-- Model of `JSON.stringify`: `none` for `undefined` (which JS leaves
unserialized), `"null"` for `null` and `NaN`, element-wise rendering
for arrays (an undefined element renders as `null`) and objects (a
property with undefined value is dropped), insertion order preserved.
Float literals render as themselves. -/
def jsonStringify : Json → Option String
  | .undefined => none
  | .null => some "null"
  | .nan => some "null"
  | .bool b => some (cond b "true" "false")
  | .num n => some (toString n)
  | .float lit => some lit
  | .str s => some (jsQuote s)
  | .arr xs => some ("[" ++ String.intercalate "," (stringifyElems xs) ++ "]")
  | .obj props => some ("\x7b" ++ String.intercalate "," (stringifyProps props) ++ "\x7d")

/-- Renderings of the elements of an array for `jsonStringify`. -/
def stringifyElems : List Json → List String
  | [] => []
  | x :: xs => ((jsonStringify x).getD "null") :: stringifyElems xs

/-- Renderings of the properties of an object for `jsonStringify`. -/
def stringifyProps : List (String × Json) → List String
  | [] => []
  | (k, v) :: rest =>
    match jsonStringify v with
    | none => stringifyProps rest
    | some sv => (jsQuote k ++ ":" ++ sv) :: stringifyProps rest

end

/-- Insertion-ordered deduplication of a key list, as iterating
`new Set([...a, ...b])` visits keys: each key at its first occurrence. -/
def dedupKeys (ks : List String) : List String :=
  ks.foldl (fun acc k => if k ∈ acc then acc else acc ++ [k]) []

/-- The update-diff loop of `transformFirestoreEvent`
(src/functions/index.js lines 125-140): over the deduplicated union of
the two records' keys, skip `id`, and record the property pair with
keys `before` and `after` whenever the two `JSON.stringify` renderings
differ. -/
def computeChanges (beforeData afterData : Json) : List (String × Json) :=
  (dedupKeys (objKeys beforeData ++ objKeys afterData)).filterMap fun k =>
    if k = "id" then none
    else
      let beforeValue := getProp beforeData k
      let afterValue := getProp afterData k
      if jsonStringify beforeValue = jsonStringify afterValue then none
      else some (k, .obj [("before", beforeValue), ("after", afterValue)])

/-- The regex strip of src/functions/index.js line 65: remove a leading
`projects/<seg>/databases/<seg>/documents/` (each `<seg>` a nonempty
slash-free run) from the document path, leaving the path unchanged when
that pattern is not present at the start. -/
def cleanDocumentPath (path : String) : String :=
  match splitChar '/' path with
  | "projects" :: p :: "databases" :: d :: "documents" :: rest =>
    if p ≠ "" ∧ d ≠ "" ∧ rest ≠ [] then String.intercalate "/" rest
    else path
  | _ => path

/-- The `pathParts[pathParts.length - 1] || "unknown"` computation of
line 61: the last path segment, with the empty string and a missing
segment both falling back to `"unknown"`. -/
def documentIdOf (pathParts : List String) : String :=
  match pathParts.getLast? with
  | some s => if s = "" then "unknown" else s
  | none => "unknown"

/-- The `pathParts[pathParts.length - 2] || "unknown"` computation of
line 62 (a JS index of -1 reads `undefined`). -/
def collectionIdOf (pathParts : List String) : String :=
  if pathParts.length ≥ 2 then
    match pathParts.get? (pathParts.length - 2) with
    | some s => if s = "" then "unknown" else s
    | none => "unknown"
  else "unknown"

/-- The raw Firestore trigger event as `transformFirestoreEvent` reads
it: the `document` path property and the two snapshots (any of the
three may be `undefined`). -/
structure RawEvent where
  document : Json
  value : Json
  oldValue : Json

/-- The body of the `try` block of `transformFirestoreEvent`
(src/functions/index.js lines 57-169). Its error sites:
`documentPath.split('/')` throws when `event.document || ""` is a
truthy non-string, and the snapshot parses propagate the decoder's
TypeErrors (lines 103 and 105); for an update the old snapshot is
parsed first, so its fault wins. `now` stands for
`new Date().toISOString()`. -/
def transformCore (eventType : String) (event : RawEvent) (now : String) :
    Except String Json :=
  match jsOr event.document (.str "") with
  | .str documentPath =>
    let pathParts := splitChar '/' documentPath
    let documentId := documentIdOf pathParts
    let collectionId := collectionIdOf pathParts
    let cleanPath := cleanDocumentPath documentPath
    let timestamp := now
    if eventType = "document_updated" then
      match parseDocumentData event.oldValue documentId with
      | .error msg => .error msg
      | .ok beforeData =>
        match parseDocumentData event.value documentId with
        | .error msg => .error msg
        | .ok afterData =>
          let changes := computeChanges beforeData afterData
          .ok (.obj [("eventType", .str eventType), ("documentPath", .str cleanPath),
            ("documentId", .str documentId), ("collectionId", .str collectionId),
            ("timestamp", .str timestamp), ("before", beforeData),
            ("after", afterData), ("changes", .obj changes)])
    else
      match (if eventType = "document_created" && jsTruthy event.value then
               parseDocumentData event.value documentId
             else if eventType = "document_deleted" && jsTruthy event.oldValue then
               parseDocumentData event.oldValue documentId
             else .ok (.obj [])) with
      | .error msg => .error msg
      | .ok documentData =>
        .ok (.obj [("eventType", .str eventType), ("documentPath", .str cleanPath),
          ("documentId", .str documentId), ("collectionId", .str collectionId),
          ("timestamp", .str timestamp), ("data", documentData)])
  | _ => .error "documentPath.split is not a function"

/-- The whole `transformFirestoreEvent` (src/functions/index.js lines
56-180): the `try` body, with the `catch` turning any thrown error into
the degraded envelope of lines 173-178. -/
def transformFirestoreEvent (eventType : String) (event : RawEvent) (now : String) :
    Json :=
  match transformCore eventType event now with
  | .ok envelope => envelope
  | .error msg =>
    .obj [("eventType", .str eventType),
      ("error", .str "Failed to transform event data"),
      ("errorMessage", .str msg),
      ("timestamp", .str now)]

/-- The hardcoded allow-list of `isValidWebhookUrl`
(src/functions/index.js line 38). -/
def allowedDomains : List String := ["connect.pabbly.com", "webhook.site"]

/-- Whether a character may occur in a URL scheme. -/
def isSchemeChar (c : Char) : Bool := c.isAlphanum || c == '+' || c == '-' || c == '.'

/-- Splitting a character list at its first `://`: the characters
before it and after it, `none` when the first `:` (or the whole string)
is not followed by `//`. -/
def splitSchemeRest : List Char → Option (List Char × List Char)
  | [] => none
  | ':' :: '/' :: '/' :: rest => some ([], rest)
  | ':' :: _ => none
  | c :: cs => (splitSchemeRest cs).map (fun p => (c :: p.1, p.2))

/-- Model of the platform `new URL(url)` as far as `isValidWebhookUrl`
observes it: `some hostname` when the string has the shape
`scheme://[userinfo@]host[:port]` followed by an optional
path/query/fragment, with an alphabetic-led scheme and a nonempty host
(hostname lowercased, as the URL class does), and `none` when
construction throws. -/
def parseUrlHostname (url : String) : Option String :=
  match splitSchemeRest url.data with
  | none => none
  | some (scheme, rest) =>
    if scheme = [] ∨ ¬ (scheme.all isSchemeChar = true)
        ∨ ¬ ((scheme.headD '0').isAlpha = true) then none
    else
      let authority := rest.takeWhile (fun c => !(c = '/' || c = '?' || c = '#'))
      let hostPort := (authority.reverse.takeWhile (fun c => c ≠ '@')).reverse
      let host := hostPort.takeWhile (fun c => c ≠ ':')
      if host = [] then none else some (String.mk (host.map Char.toLower))

/-- The endpoint validator `isValidWebhookUrl` (src/functions/index.js
lines 33-46): false on a falsy (empty) url, false when URL construction
throws, otherwise true exactly when the hostname equals an allowed
domain or ends with a dot followed by one. -/
def isValidWebhookUrl (url : String) : Bool :=
  if url = "" then false
  else
    match parseUrlHostname url with
    | some hostname =>
      allowedDomains.any fun domain =>
        hostname == domain || strEndsWith hostname ("." ++ domain)
    | none => false

/-- Outcome of the single `axios.post` of `sendWebhook`, as the code
distinguishes outcomes: a response (2xx success or `error.response`
with its status), no response received (`error.request`), or a failure
to set the request up. -/
inductive DeliveryOutcome where
  | success (status : Nat)
  | responseError (status : Nat) (statusText : String)
  | noResponse (message code : String)
  | setupFailure (message : String)

/-- One structured log line of `sendWebhook`, abstracted to its level
and classification. -/
inductive Observation where
  | warnNoUrl
  | errorInvalidUrl (url : String)
  | infoAttempt (url : String)
  | infoSuccess (status : Nat)
  | remoteError (status : Nat) (statusText : String)
  | noResponseError (message code : String)
  | setupError (message : String)
  deriving DecidableEq

/-- Whether an observation is the remote-error classification. -/
def Observation.isRemoteError : Observation → Bool
  | .remoteError _ _ => true
  | _ => false

/-- Whether an observation is the no-response classification. -/
def Observation.isNoResponse : Observation → Bool
  | .noResponseError _ _ => true
  | _ => false

/-- Whether an observation is the setup-error classification. -/
def Observation.isSetupError : Observation → Bool
  | .setupError _ => true
  | _ => false

/-- What a call of `sendWebhook` does: the log lines it emits and what
it lets escape to the caller (`none` = the promise resolves normally). -/
structure DispatchResult where
  observations : List Observation
  propagated : Option String

/-- The dispatcher `sendWebhook` (src/functions/index.js lines
189-236), with the HTTP call's outcome an explicit parameter: skip with
a warning on an empty configured URL, skip with an error log on a
rejected URL, otherwise log the attempt and then classify the outcome
in the catch exactly as the code's `error.response` / `error.request` /
fallback branches do; every branch returns normally. -/
def sendWebhook (webhookUrl : String) (outcome : DeliveryOutcome) : DispatchResult :=
  if webhookUrl = "" then ⟨[.warnNoUrl], none⟩
  else if !isValidWebhookUrl webhookUrl then ⟨[.errorInvalidUrl webhookUrl], none⟩
  else
    match outcome with
    | .success status => ⟨[.infoAttempt webhookUrl, .infoSuccess status], none⟩
    | .responseError status statusText =>
      ⟨[.infoAttempt webhookUrl, .remoteError status statusText], none⟩
    | .noResponse message code =>
      ⟨[.infoAttempt webhookUrl, .noResponseError message code], none⟩
    | .setupFailure message =>
      ⟨[.infoAttempt webhookUrl, .setupError message], none⟩

/-- The eight type tags `parseDocumentData` recognizes. -/
def knownTags : List String :=
  ["stringValue", "integerValue", "doubleValue", "booleanValue",
   "timestampValue", "nullValue", "arrayValue", "mapValue"]

/-! ### Supporting lemmas -/

/-- With the default `""` on the right, `||` of a string is the string
itself (a falsy string is the empty string). -/
theorem jsOr_str_str (s : String) : jsOr (Json.str s) (.str "") = Json.str s := by
  by_cases h : s = "" <;> simp [jsOr, jsTruthy, h]

/-- Membership in the deduplication fold: an element is in the result
exactly when it is in the accumulator or in the remaining input. -/
theorem mem_dedupKeys_aux (l : List String) :
    ∀ (acc : List String) (x : String),
      (x ∈ l.foldl (fun acc k => if k ∈ acc then acc else acc ++ [k]) acc)
        ↔ x ∈ acc ∨ x ∈ l := by
  induction l with
  | nil => intro acc x; simp
  | cons a l ih =>
    intro acc x
    simp only [List.foldl_cons]
    by_cases h : a ∈ acc
    · rw [if_pos h, ih]
      constructor
      · rintro (hx | hx)
        · exact Or.inl hx
        · exact Or.inr (List.mem_cons_of_mem a hx)
      · rintro (hx | hx)
        · exact Or.inl hx
        · rcases List.mem_cons.mp hx with rfl | hx
          · exact Or.inl h
          · exact Or.inr hx
    · rw [if_neg h, ih]
      simp only [List.mem_append, List.mem_singleton, List.mem_cons]
      tauto

/-- Membership in `dedupKeys` is membership in the input. -/
theorem mem_dedupKeys (l : List String) (x : String) : x ∈ dedupKeys l ↔ x ∈ l := by
  simpa using mem_dedupKeys_aux l [] x

/-- The deduplication fold keeps the accumulator duplicate-free. -/
theorem nodup_dedupKeys_aux (l : List String) :
    ∀ acc : List String, acc.Nodup →
      (l.foldl (fun acc k => if k ∈ acc then acc else acc ++ [k]) acc).Nodup := by
  induction l with
  | nil => intro acc h; simpa using h
  | cons a l ih =>
    intro acc h
    simp only [List.foldl_cons]
    by_cases ha : a ∈ acc
    · rw [if_pos ha]; exact ih acc h
    · rw [if_neg ha]
      refine ih _ ?_
      simp [List.nodup_append, h, ha]

/-- The keys `dedupKeys` returns are duplicate-free. -/
theorem nodup_dedupKeys (l : List String) : (dedupKeys l).Nodup :=
  nodup_dedupKeys_aux l [] List.nodup_nil

/-- Lookup in a `filterMap` over duplicate-free keys, for a function
that keeps the key it was given: the lookup at `k` is what `f` produces
at `k`, provided `k` is among the keys at all. -/
theorem lookupProp_filterMap (f : String → Option (String × Json))
    (hf : ∀ c x, f c = some x → x.1 = c) :
    ∀ (l : List String), l.Nodup → ∀ k,
      lookupProp (l.filterMap f) k =
        if k ∈ l then ((f k).map Prod.snd).getD .undefined else .undefined := by
  intro l
  induction l with
  | nil => intro _ k; simp [lookupProp]
  | cons c l ih =>
    intro hnd k
    rcases List.nodup_cons.mp hnd with ⟨hcl, hl⟩
    rw [List.filterMap_cons]
    cases hfc : f c with
    | none =>
      rw [ih hl k]
      by_cases hk : k = c
      · subst hk
        rw [if_neg hcl, if_pos (List.mem_cons_self k l)]
        simp [hfc]
      · simp [List.mem_cons, hk]
    | some x =>
      obtain ⟨x1, x2⟩ := x
      have hx1 : x1 = c := hf c (x1, x2) hfc
      subst hx1
      show (if x1 = k then x2 else lookupProp (l.filterMap f) k) = _
      by_cases hk : x1 = k
      · subst hk
        rw [if_pos rfl, if_pos (List.mem_cons_self x1 l)]
        simp [hfc]
      · rw [if_neg hk, ih hl k]
        have : ¬ k = x1 := fun h => hk h.symm
        simp [List.mem_cons, this]

/-- The core of a create event whose `document` is a string, as a
single equation: the parse of the truthy snapshot (or the empty record)
mapped into the envelope. -/
theorem create_core (s now : String) (v o : Json) :
    transformCore "document_created" ⟨.str s, v, o⟩ now
      = (if jsTruthy v = true then parseDocumentData v (documentIdOf (splitChar '/' s))
         else Except.ok (.obj [])).map (fun d =>
          .obj [("eventType", .str "document_created"),
            ("documentPath", .str (cleanDocumentPath s)),
            ("documentId", .str (documentIdOf (splitChar '/' s))),
            ("collectionId", .str (collectionIdOf (splitChar '/' s))),
            ("timestamp", .str now),
            ("data", d)]) := by
  rw [transformCore, jsOr_str_str]
  by_cases hv : jsTruthy v = true
  · simp only [hv, if_true, Bool.and_true, Bool.and_self]
    cases hp : parseDocumentData v (documentIdOf (splitChar '/' s)) <;>
      simp [hp, Except.map]
  · simp only [hv]
    have hvf : jsTruthy v = false := by revert hv; cases jsTruthy v <;> simp
    simp [hvf, Except.map]

/-- Inversion of a successful run of the core: the envelope — of
either shape — carries the event type, the cleaned document path, the
two id segments and the wall-clock timestamp, and the `document`
property resolved to a string. -/
theorem core_ok_fields (eventType : String) (event : RawEvent) (now : String)
    (env : Json) (h : transformCore eventType event now = .ok env) :
    ∃ s : String, jsOr event.document (.str "") = .str s
      ∧ getProp env "eventType" = .str eventType
      ∧ getProp env "documentPath" = .str (cleanDocumentPath s)
      ∧ getProp env "documentId" = .str (documentIdOf (splitChar '/' s))
      ∧ getProp env "collectionId" = .str (collectionIdOf (splitChar '/' s))
      ∧ getProp env "timestamp" = .str now := by
  rcases event with ⟨d, v, o⟩
  rw [transformCore] at h
  split at h
  next dp heq =>
    refine ⟨dp, heq, ?_⟩
    dsimp only at h
    repeat' split at h
    all_goals first
      | exact Except.noConfusion h
      | (rw [Except.ok.injEq] at h; subst h; simp [getProp, lookupProp])
  next => exact absurd h (by simp)

/-! ### Claim theorems -/

/-- C1 counterexample: the spec's own normalizer-completeness example.
For a create event whose snapshot carries a `fields` mapping (and no
`_fieldsProto`), the code spreads the snapshot raw: `data` keeps the
`name` and the still-encoded `fields` keys, carries no decoded
`amount`, and is not the claimed record of `id` and `amount` 10. -/
theorem C1_fields_snapshot_spread_raw_cex :
    getProp (transformFirestoreEvent "document_created"
        ⟨.str "projects/p/databases/d/documents/orders/42",
         .obj [("name", .str "projects/p/databases/d/documents/orders/42"),
               ("fields", .obj [("amount", .obj [("integerValue", .str "10")])])],
         .undefined⟩ "NOW") "data"
      = .obj [("id", .str "42"),
          ("name", .str "projects/p/databases/d/documents/orders/42"),
          ("fields", .obj [("amount", .obj [("integerValue", .str "10")])])]
    ∧ Json.obj [("id", .str "42"),
          ("name", .str "projects/p/databases/d/documents/orders/42"),
          ("fields", .obj [("amount", .obj [("integerValue", .str "10")])])]
        ≠ .obj [("id", .str "42"), ("amount", .num 10)]
    ∧ getProp (getProp (transformFirestoreEvent "document_created"
        ⟨.str "projects/p/databases/d/documents/orders/42",
         .obj [("name", .str "projects/p/databases/d/documents/orders/42"),
               ("fields", .obj [("amount", .obj [("integerValue", .str "10")])])],
         .undefined⟩ "NOW") "data") "amount" = .undefined :=
  ⟨rfl, by simp, rfl⟩

/-- C1 (amended): the decoded record of the claim is produced only for
a snapshot whose field mapping sits under `_fieldsProto`, and only when
every entry decodes without a fault: then `data` is the id record
extended by the decoded entries in order (a decode fault instead
degrades the whole envelope, settled under C8). A snapshot without a
truthy `_fieldsProto` (the `fields`-carrying wire shape included) is
spread raw after the id, entries undecoded and unable to fault. -/
theorem C1_create_record_decodes_only_fieldsProto (s now : String) (o : Json)
    (kvs kvs2 rec : List (String × Json))
    (h1 : decodeEntries kvs [("id", .str (documentIdOf (splitChar '/' s)))] = .ok rec)
    (h2 : jsTruthy (getProp (.obj kvs2) "_fieldsProto") = false) :
    getProp (transformFirestoreEvent "document_created"
        ⟨.str s, .obj [("_fieldsProto", .obj kvs)], o⟩ now) "data"
      = .obj rec
    ∧ getProp (transformFirestoreEvent "document_created"
        ⟨.str s, .obj kvs2, o⟩ now) "data"
      = .obj (kvs2.foldl (fun acc kv => setKey acc kv.1 kv.2)
          [("id", .str (documentIdOf (splitChar '/' s)))]) := by
  constructor
  · have hp : parseDocumentData (.obj [("_fieldsProto", .obj kvs)])
        (documentIdOf (splitChar '/' s)) = .ok (.obj rec) := by
      show Except.map Json.obj
        (decodeEntries kvs [("id", .str (documentIdOf (splitChar '/' s)))]) = _
      rw [h1]
      rfl
    rw [transformFirestoreEvent, create_core,
      if_pos (show jsTruthy (Json.obj [("_fieldsProto", Json.obj kvs)]) = true from rfl),
      hp]
    rfl
  · have hp2 : parseDocumentData (Json.obj kvs2) (documentIdOf (splitChar '/' s))
        = .ok (.obj (kvs2.foldl (fun acc kv => setKey acc kv.1 kv.2)
            [("id", .str (documentIdOf (splitChar '/' s)))])) := by
      rw [parseDocumentData, h2]
      simp [jsTruthy, typeofObject, objEntries]
    rw [transformFirestoreEvent, create_core,
      if_pos (show jsTruthy (Json.obj kvs2) = true from rfl), hp2]
    rfl

/-- C1 witness: `C1_create_record_decodes_only_fieldsProto` at the
claim's numbers: a `_fieldsProto` snapshot of one `integerValue` "10"
field for document `orders/42` decodes without fault and yields the
record of id "42" and amount 10. -/
theorem C1_create_record_decodes_only_fieldsProto_witness :
    getProp (transformFirestoreEvent "document_created"
        ⟨.str "orders/42",
         .obj [("_fieldsProto", .obj [("amount", .obj [("integerValue", .str "10")])])],
         .undefined⟩ "NOW") "data"
      = .obj [("id", .str "42"), ("amount", .num 10)] :=
  (C1_create_record_decodes_only_fieldsProto "orders/42" "NOW" .undefined
    [("amount", .obj [("integerValue", .str "10")])] []
    [("id", .str "42"), ("amount", .num 10)] rfl rfl).1

/-- C2 counterexample: the claim says array elements are recursively
decoded, but on an `arrayValue` holding one `integerValue`-tagged
element the decoder returns the raw tagged object, not the decoded
number 7. -/
theorem C2_array_not_recursively_decoded_cex :
    decodeField (.obj [("arrayValue",
        .obj [("values", .arr [.obj [("integerValue", .str "7")]])])])
      = .ok (.arr [.obj [("integerValue", .str "7")]])
    ∧ Json.arr [.obj [("integerValue", .str "7")]] ≠ .arr [.num 7] :=
  ⟨rfl, by simp⟩

/-- C2 (amended): an `arrayValue` decodes to its `values` list exactly
as it stands, with the empty list when `values` is absent, and a
`mapValue` decodes to its `fields` mapping exactly as it stands, with
the empty mapping when `fields` is absent; elements and entries are not
recursively decoded (order is preserved trivially, the list being
returned unchanged). -/
theorem C2_array_map_values_raw (vs : List Json) (kvs : List (String × Json)) :
    decodeField (.obj [("arrayValue", .obj [("values", .arr vs)])]) = .ok (.arr vs)
    ∧ decodeField (.obj [("arrayValue", .obj [])]) = .ok (.arr [])
    ∧ decodeField (.obj [("mapValue", .obj [("fields", .obj kvs)])]) = .ok (.obj kvs)
    ∧ decodeField (.obj [("mapValue", .obj [])]) = .ok (.obj []) :=
  ⟨rfl, rfl, rfl, rfl⟩

/-- C3 counterexample: the spec's own diff example. For an update from
status "open" to status "closed", the entry `changes.status` is the
pair object of `before` and `after`, not the bare "after" value
"closed" the claim states. -/
theorem C3_changes_value_is_pair_cex :
    getProp (getProp (transformFirestoreEvent "document_updated"
        ⟨.str "orders/1", .obj [("status", .str "closed")], .obj [("status", .str "open")]⟩
        "NOW") "changes") "status"
      = .obj [("before", .str "open"), ("after", .str "closed")]
    ∧ Json.obj [("before", .str "open"), ("after", .str "closed")] ≠ .str "closed"
    ∧ getProp (getProp (transformFirestoreEvent "document_updated"
        ⟨.str "orders/1", .obj [("status", .str "closed")], .obj [("status", .str "open")]⟩
        "NOW") "changes") "id" = .undefined :=
  ⟨rfl, by simp, rfl⟩

/-- C3 (amended): the changes mapping holds a key k exactly when k is a
key of the before or after record, differs from `id`, and the two
values' `JSON.stringify` renderings differ (the code compares
serializations, which agree with deep equality on serializable values);
each held entry is the pair object of the `before` and `after` values,
not the bare after value; `id` is never a key; and when every non-id
value serializes equally, changes is empty. -/
theorem C3_changes_pairs_by_stringify (b a : Json) (k : String) :
    (lookupProp (computeChanges b a) k =
      if k ∈ objKeys b ++ objKeys a ∧ ¬ k = "id" ∧
          ¬ jsonStringify (getProp b k) = jsonStringify (getProp a k)
      then .obj [("before", getProp b k), ("after", getProp a k)]
      else .undefined)
    ∧ ("id" ∉ (computeChanges b a).map Prod.fst)
    ∧ ((∀ k2, ¬ k2 = "id" →
          jsonStringify (getProp b k2) = jsonStringify (getProp a k2)) →
        computeChanges b a = []) := by
  have hch : computeChanges b a =
      (dedupKeys (objKeys b ++ objKeys a)).filterMap (fun c =>
        if c = "id" then none
        else if jsonStringify (getProp b c) = jsonStringify (getProp a c) then none
        else some (c, .obj [("before", getProp b c), ("after", getProp a c)])) := rfl
  have hf : ∀ c (x : String × Json),
      (if c = "id" then none
       else if jsonStringify (getProp b c) = jsonStringify (getProp a c) then none
       else some (c, Json.obj [("before", getProp b c), ("after", getProp a c)]))
        = some x → x.1 = c := by
    intro c x h
    split_ifs at h
    all_goals first
    | exact Option.noConfusion h
    | rw [← Option.some.inj h]
  refine ⟨?_, ?_, ?_⟩
  · rw [hch, lookupProp_filterMap _ hf _ (nodup_dedupKeys _) k]
    simp only [mem_dedupKeys]
    by_cases hk1 : k ∈ objKeys b ++ objKeys a
    · rw [if_pos hk1]
      by_cases hk2 : k = "id"
      · simp [hk2]
      · by_cases hk3 : jsonStringify (getProp b k) = jsonStringify (getProp a k)
        · simp [hk1, hk2, hk3]
        · simp [hk1, hk2, hk3]
    · simp [hk1]
  · intro hid
    rw [hch, List.mem_map] at hid
    obtain ⟨x, hx, hx1⟩ := hid
    rw [List.mem_filterMap] at hx
    obtain ⟨c, _, hfc⟩ := hx
    rw [hf c x hfc] at hx1
    subst hx1
    simp at hfc
  · intro hall
    rw [hch]
    refine List.filterMap_eq_nil_iff.mpr (fun c _ => ?_)
    by_cases h1 : c = "id"
    · rw [if_pos h1]
    · rw [if_neg h1, if_pos (hall c h1)]

/-- C4: the endpoint validator returns true exactly when the url
parses to a hostname that equals an allowed domain or ends with a dot
followed by one (a dot-separated subdomain), and it returns false —
the function is total, so nothing is raised — on the empty string and
whenever URL parsing fails. -/
theorem C4_validator_allowlist_iff (url : String) :
    (isValidWebhookUrl url = true ↔
      ∃ host, parseUrlHostname url = some host ∧
        (host ∈ allowedDomains ∨
          ∃ d ∈ allowedDomains, strEndsWith host ("." ++ d) = true))
    ∧ isValidWebhookUrl "" = false := by
  refine ⟨?_, rfl⟩
  by_cases hu : url = ""
  · subst hu
    constructor
    · intro h; exact absurd h (by decide)
    · rintro ⟨host, hp, _⟩
      rw [show parseUrlHostname "" = none from rfl] at hp
      exact Option.noConfusion hp
  · rw [isValidWebhookUrl, if_neg hu]
    cases hp : parseUrlHostname url with
    | none =>
      simp
    | some h =>
      simp only [List.any_eq_true, Option.some.injEq]
      constructor
      · rintro ⟨d, hd, hmatch⟩
        rw [Bool.or_eq_true, beq_iff_eq] at hmatch
        refine ⟨h, rfl, ?_⟩
        rcases hmatch with he | he
        · exact Or.inl (he ▸ hd)
        · exact Or.inr ⟨d, hd, he⟩
      · rintro ⟨host, rfl, hcase⟩
        rcases hcase with hmem | ⟨d, hd, hend⟩
        · exact ⟨h, hmem, by rw [Bool.or_eq_true, beq_iff_eq]; exact Or.inl rfl⟩
        · exact ⟨d, hd, by rw [Bool.or_eq_true]; exact Or.inr hend⟩

/-- C5: the dispatcher never lets anything escape to the caller, for
every configured URL and every delivery outcome; an empty URL is a
no-op with exactly the warning observation; a non-empty URL the
validator rejects is a no-op with exactly the invalid-url error
observation; and when the URL is accepted, exactly one observation of
the matching classification (remote-error, no-response, setup-error)
is recorded for the corresponding failure outcome. -/
theorem C5_dispatch_swallow_and_classify (url : String) (outcome : DeliveryOutcome) :
    (sendWebhook url outcome).propagated = none
    ∧ (url = "" → (sendWebhook url outcome).observations = [.warnNoUrl])
    ∧ (¬ url = "" → isValidWebhookUrl url = false →
        (sendWebhook url outcome).observations = [.errorInvalidUrl url])
    ∧ (isValidWebhookUrl url = true →
        ((sendWebhook url outcome).observations.countP (fun ob => ob.isRemoteError)
            = match outcome with | .responseError _ _ => 1 | _ => 0)
        ∧ ((sendWebhook url outcome).observations.countP (fun ob => ob.isNoResponse)
            = match outcome with | .noResponse _ _ => 1 | _ => 0)
        ∧ ((sendWebhook url outcome).observations.countP (fun ob => ob.isSetupError)
            = match outcome with | .setupFailure _ => 1 | _ => 0)) := by
  by_cases hu : url = ""
  · subst hu
    have hv : isValidWebhookUrl "" = false := rfl
    cases outcome <;>
      exact ⟨rfl, fun _ => rfl, fun h _ => absurd rfl h,
        fun hvt => absurd (hv.symm.trans hvt) (by decide)⟩
  · by_cases hv : isValidWebhookUrl url = true
    · have hvf : ¬ isValidWebhookUrl url = false := by rw [hv]; decide
      cases outcome <;>
        refine ⟨?_, fun h => absurd h hu, fun _ hf => absurd hf hvf, fun _ => ?_⟩ <;>
        simp [sendWebhook, hu, hv, Observation.isRemoteError, Observation.isNoResponse,
          Observation.isSetupError]
    · have hvf : isValidWebhookUrl url = false := by
        revert hv; cases isValidWebhookUrl url <;> simp
      cases outcome <;>
        refine ⟨?_, fun h => absurd h hu, fun _ _ => ?_, fun hvt => absurd (hvf.symm.trans hvt) (by decide)⟩ <;>
        simp [sendWebhook, hu, hvf]

/-- C5 witness: `C5_dispatch_swallow_and_classify` at an accepted
concrete URL and a concrete timeout outcome: nothing propagates and the
no-response classification is recorded exactly once. -/
theorem C5_dispatch_swallow_and_classify_witness :
    (sendWebhook "https://connect.pabbly.com/hook"
        (.noResponse "timeout of 15000ms exceeded" "ECONNABORTED")).propagated = none
    ∧ ((sendWebhook "https://connect.pabbly.com/hook"
        (.noResponse "timeout of 15000ms exceeded" "ECONNABORTED")).observations.countP
          (fun ob => ob.isNoResponse)) = 1 := by
  have h := C5_dispatch_swallow_and_classify "https://connect.pabbly.com/hook"
    (.noResponse "timeout of 15000ms exceeded" "ECONNABORTED")
  exact ⟨h.1, (h.2.2.2 rfl).2.1⟩

/-- C6 counterexample: a create event whose snapshot carries
`updateTime` "2020-01-01..." still gets the wall-clock time
"2024-06-01..." as its envelope timestamp; the snapshot's `updateTime`
is never consulted. -/
theorem C6_timestamp_ignores_updateTime_cex :
    getProp (Json.obj [("updateTime", .str "2020-01-01T00:00:00.000Z")]) "updateTime"
      = .str "2020-01-01T00:00:00.000Z"
    ∧ getProp (transformFirestoreEvent "document_created"
        ⟨.str "orders/1", .obj [("updateTime", .str "2020-01-01T00:00:00.000Z")], .undefined⟩
        "2024-06-01T00:00:00.000Z") "timestamp"
      = .str "2024-06-01T00:00:00.000Z"
    ∧ Json.str "2024-06-01T00:00:00.000Z" ≠ .str "2020-01-01T00:00:00.000Z" :=
  ⟨rfl, rfl, by simp⟩

/-- C6 (amended): the envelope's timestamp is always the current
wall-clock time in ISO-8601 (`new Date().toISOString()`, the `now`
parameter of the embedding), for every event type and every event,
degraded envelopes included; snapshot `updateTime` values play no
part. -/
theorem C6_timestamp_always_wall_clock (eventType : String) (event : RawEvent)
    (now : String) :
    getProp (transformFirestoreEvent eventType event now) "timestamp" = .str now := by
  cases hc : transformCore eventType event now with
  | error msg =>
    rw [transformFirestoreEvent, hc]
    rfl
  | ok env =>
    rw [transformFirestoreEvent, hc]
    obtain ⟨_, _, _, _, _, _, hts⟩ := core_ok_fields eventType event now env hc
    exact hts

/-- C7 counterexample: for an event with no `document` property whose
snapshot's `name` is a full resource path of the document `orders/42`,
the claim says `documentPath` is "orders/42" (from the snapshot name)
or "unknown" when no snapshot exists; the code takes neither from the
snapshot and produces the empty string. -/
theorem C7_documentPath_not_from_snapshot_name_cex :
    getProp (transformFirestoreEvent "document_created"
        ⟨.undefined, .obj [("name", .str "projects/p/databases/d/documents/orders/42")], .undefined⟩
        "NOW") "documentPath"
      = .str ""
    ∧ Json.str "" ≠ .str "orders/42"
    ∧ Json.str "" ≠ .str "unknown" :=
  ⟨rfl, by simp, by simp⟩

/-- C7 (amended): in every envelope of a completed normalization
(non-degraded), `documentPath` is derived from `event.document` alone,
never from a snapshot's `name`: when `event.document` is the string s
it is s with a leading `projects/<seg>/databases/<seg>/documents/`
stripped (`cleanDocumentPath`), and when `event.document` is absent it
is the empty string, not "unknown". -/
theorem C7_documentPath_from_event_document (eventType s now : String) (v o : Json)
    (env : Json)
    (h : transformCore eventType ⟨.str s, v, o⟩ now = .ok env) :
    getProp env "documentPath" = .str (cleanDocumentPath s)
    ∧ (∀ env2 : Json, transformCore eventType ⟨.undefined, v, o⟩ now = .ok env2 →
        getProp env2 "documentPath" = .str "")
    ∧ cleanDocumentPath "projects/p/databases/d/documents/orders/42" = "orders/42" := by
  refine ⟨?_, ?_, rfl⟩
  · obtain ⟨s2, hs2, _, hdp, _⟩ := core_ok_fields eventType ⟨.str s, v, o⟩ now env h
    rw [jsOr_str_str] at hs2
    obtain rfl : s = s2 := Json.str.inj hs2
    exact hdp
  · intro env2 h2
    obtain ⟨s2, hs2, _, hdp, _⟩ := core_ok_fields eventType ⟨.undefined, v, o⟩ now env2 h2
    obtain rfl : "" = s2 := Json.str.inj hs2
    exact hdp

/-- C7 witness: `C7_documentPath_from_event_document` at a concrete
create event whose `document` carries the full resource path: the
envelope's `documentPath` is the stripped "orders/42". -/
theorem C7_documentPath_from_event_document_witness :
    getProp (Json.obj [("eventType", .str "document_created"),
        ("documentPath", .str "orders/42"), ("documentId", .str "42"),
        ("collectionId", .str "orders"), ("timestamp", .str "NOW"),
        ("data", .obj [])]) "documentPath"
      = .str "orders/42" :=
  (C7_documentPath_from_event_document "document_created"
    "projects/p/databases/d/documents/orders/42" "NOW" .undefined .undefined
    (Json.obj [("eventType", .str "document_created"),
      ("documentPath", .str "orders/42"), ("documentId", .str "42"),
      ("collectionId", .str "orders"), ("timestamp", .str "NOW"),
      ("data", .obj [])]) rfl).1.trans rfl

/-- C8 counterexample: on the internal fault raised by a non-string
`document` property, the degraded envelope the code returns has no
`documentPath` key at all, where the claim requires
`documentPath: "unknown"`. -/
theorem C8_degraded_has_no_documentPath_cex :
    getProp (transformFirestoreEvent "document_created" ⟨.num 5, .undefined, .undefined⟩ "NOW")
        "documentPath" = .undefined
    ∧ getProp (transformFirestoreEvent "document_created" ⟨.num 5, .undefined, .undefined⟩ "NOW")
        "error" = .str "Failed to transform event data"
    ∧ Json.undefined ≠ .str "unknown" :=
  ⟨rfl, rfl, by simp⟩

/-- C8 (amended): normalization never raises to the caller — the total
wrapper returns an envelope for every input — and on an internal fault
it returns exactly the degraded envelope with keys `eventType`,
`error` (the fixed message "Failed to transform event data"),
`errorMessage` (the cause) and `timestamp` (the current time); no
`documentPath` key is present. -/
theorem C8_degraded_envelope_shape (eventType : String) (event : RawEvent)
    (now msg : String) (h : transformCore eventType event now = .error msg) :
    transformFirestoreEvent eventType event now
      = .obj [("eventType", .str eventType),
          ("error", .str "Failed to transform event data"),
          ("errorMessage", .str msg),
          ("timestamp", .str now)]
    ∧ getProp (transformFirestoreEvent eventType event now) "documentPath" = .undefined := by
  constructor
  · rw [transformFirestoreEvent, h]
  · rw [transformFirestoreEvent, h]
    rfl

/-- C8 witness: `C8_degraded_envelope_shape` applied twice: at the
faulting event whose `document` is the number 5, and at the decode
fault of a `_fieldsProto` snapshot whose `arrayValue` tag holds null
(the TypeError of index.js line 103). -/
theorem C8_degraded_envelope_shape_witness :
    transformFirestoreEvent "document_created" ⟨.num 5, .undefined, .undefined⟩ "NOW"
      = .obj [("eventType", .str "document_created"),
          ("error", .str "Failed to transform event data"),
          ("errorMessage", .str "documentPath.split is not a function"),
          ("timestamp", .str "NOW")]
    ∧ transformFirestoreEvent "document_created"
        ⟨.str "orders/1",
         .obj [("_fieldsProto", .obj [("f", .obj [("arrayValue", .null)])])],
         .undefined⟩ "NOW"
      = .obj [("eventType", .str "document_created"),
          ("error", .str "Failed to transform event data"),
          ("errorMessage", .str "Cannot read properties of null (reading 'values')"),
          ("timestamp", .str "NOW")] :=
  ⟨(C8_degraded_envelope_shape "document_created" ⟨.num 5, .undefined, .undefined⟩ "NOW"
      "documentPath.split is not a function" rfl).1,
   (C8_degraded_envelope_shape "document_created"
      ⟨.str "orders/1",
       .obj [("_fieldsProto", .obj [("f", .obj [("arrayValue", .null)])])],
       .undefined⟩ "NOW"
      "Cannot read properties of null (reading 'values')" rfl).1⟩

/-- C9 counterexample: the decoder is not total. A field tagged
`arrayValue` whose tag value is null passes the `!== undefined` check
and the access `value.arrayValue.values` throws a TypeError
(index.js line 103); likewise `mapValue` null at line 105. Decoding
raises rather than returning a value. -/
theorem C9_decoder_null_tag_throws_cex :
    decodeField (.obj [("arrayValue", .null)])
      = .error "Cannot read properties of null (reading 'values')"
    ∧ decodeField (.obj [("mapValue", .null)])
      = .error "Cannot read properties of null (reading 'fields')" :=
  ⟨rfl, rfl⟩

/-- C9 (amended): the decoder returns a value for every input except
when the `arrayValue` or `mapValue` tag holds null, where it throws a
TypeError that propagates to the normalizer's catch. On the non-faulting
inputs the claim's cases hold: an unrecognized empty object decodes to
the empty structure, an object whose single key matches no known tag
decodes to that key's value, and a falsy or non-object value passes
through unchanged. -/
theorem C9_decoder_fallback_total (k : String) (v : Json) (hk : k ∉ knownTags) :
    decodeField (.obj []) = .ok (.obj [])
    ∧ decodeField (.obj [(k, v)]) = .ok v
    ∧ (∀ w : Json, (jsTruthy w && typeofObject w) = false → decodeField w = .ok w)
    ∧ decodeField (.obj [("arrayValue", .null)])
      = .error "Cannot read properties of null (reading 'values')"
    ∧ decodeField (.obj [("mapValue", .null)])
      = .error "Cannot read properties of null (reading 'fields')" := by
  simp only [knownTags, List.mem_cons, List.not_mem_nil, or_false, not_or] at hk
  obtain ⟨h1, h2, h3, h4, h5, h6, h7, h8⟩ := hk
  refine ⟨rfl, ?_, ?_, rfl, rfl⟩
  · simp [decodeField, getProp, lookupProp, jsTruthy, typeofObject, jsDefined,
      objKeys, objEntries, h1, h2, h3, h4, h5, h6, h7, h8]
  · intro w hw
    unfold decodeField
    rw [hw]
    simp

/-- C9 witness: `C9_decoder_fallback_total` at the unknown tag
`geoPointValue`, whose value is decoded directly. -/
theorem C9_decoder_fallback_total_witness :
    decodeField (.obj [("geoPointValue", .str "x")]) = .ok (.str "x") :=
  (C9_decoder_fallback_total "geoPointValue" (.str "x") (by decide)).2.1

/-- C10: every non-degraded envelope carries the extra top-level keys
`documentId` (the last segment of `event.document`, "unknown" when
empty or absent) and `collectionId` (the second-to-last segment,
"unknown" when empty or absent), for every event type; an absent
`document` yields "unknown" for both. -/
theorem C10_documentId_collectionId_keys (eventType s now : String) (v o : Json)
    (env : Json)
    (h : transformCore eventType ⟨.str s, v, o⟩ now = .ok env) :
    getProp env "documentId" = .str (documentIdOf (splitChar '/' s))
    ∧ getProp env "collectionId" = .str (collectionIdOf (splitChar '/' s))
    ∧ (∀ env2 : Json, transformCore eventType ⟨.undefined, v, o⟩ now = .ok env2 →
        getProp env2 "documentId" = .str "unknown"
        ∧ getProp env2 "collectionId" = .str "unknown")
    ∧ documentIdOf (splitChar '/' "") = "unknown"
    ∧ collectionIdOf (splitChar '/' "orders") = "unknown" := by
  refine ⟨?_, ?_, ?_, rfl, rfl⟩
  · obtain ⟨s2, hs2, _, _, hdi, _, _⟩ := core_ok_fields eventType ⟨.str s, v, o⟩ now env h
    rw [jsOr_str_str] at hs2
    obtain rfl : s = s2 := Json.str.inj hs2
    exact hdi
  · obtain ⟨s2, hs2, _, _, _, hci, _⟩ := core_ok_fields eventType ⟨.str s, v, o⟩ now env h
    rw [jsOr_str_str] at hs2
    obtain rfl : s = s2 := Json.str.inj hs2
    exact hci
  · intro env2 h2
    obtain ⟨s2, hs2, _, _, hdi, hci, _⟩ :=
      core_ok_fields eventType ⟨.undefined, v, o⟩ now env2 h2
    obtain rfl : "" = s2 := Json.str.inj hs2
    exact ⟨hdi, hci⟩

/-- C10 witness: `C10_documentId_collectionId_keys` at a concrete
create event: the envelope carries documentId "42" and collectionId
"orders". -/
theorem C10_documentId_collectionId_keys_witness :
    getProp (Json.obj [("eventType", .str "document_created"),
        ("documentPath", .str "orders/42"), ("documentId", .str "42"),
        ("collectionId", .str "orders"), ("timestamp", .str "NOW"),
        ("data", .obj [])]) "documentId" = .str "42"
    ∧ getProp (Json.obj [("eventType", .str "document_created"),
        ("documentPath", .str "orders/42"), ("documentId", .str "42"),
        ("collectionId", .str "orders"), ("timestamp", .str "NOW"),
        ("data", .obj [])]) "collectionId" = .str "orders" := by
  have h := C10_documentId_collectionId_keys "document_created"
    "projects/p/databases/d/documents/orders/42" "NOW" .undefined .undefined
    (Json.obj [("eventType", .str "document_created"),
      ("documentPath", .str "orders/42"), ("documentId", .str "42"),
      ("collectionId", .str "orders"), ("timestamp", .str "NOW"),
      ("data", .obj [])]) rfl
  exact ⟨h.1.trans rfl, h.2.1.trans rfl⟩

end FirestoreWebhook
